import Mathlib

/-!
Shallow embedding of `src/jiant/proj/main/runner.py` (fagan2888/jiant-dev).

The file embeds, from the source:
  * `TrainState` (runner.py 31-42): pure step counters over an insertion-ordered
    string-keyed dictionary, modelled as an association list with unique keys.
  * `JiantRunner.run_train_step` (runner.py 98-128): the gradient-accumulation
    training step, modelled as an event trace plus a `TrainState` transition and
    the emitted log record.  Numeric loss values are modelled as rationals.
  * The L2TWW meta-learning networks (runner.py 255-326) over real-valued
    tensors: `WhatNetwork`, `WhereNetwork`, `MetaWhatAndWhere`.
  * `L2TWWRunner.run_train_step` / `run_inner_loop` (runner.py 335-402).
  * The standalone `run_val` / `run_test` (runner.py 419-516) and the
    `JiantRunner.run_val` / `run_test` drivers (runner.py 130-165).

Python exceptions are modelled with `Except String`; functions that also have
observable effects return their effect trace (`List Event`) next to the
`Except` result, so that a raised exception still exposes the effects that
happened before it.
-/

/-! ### Python dictionary with string keys, insertion order, unique keys -/

/-- One lookup step of a Python dict modelled as an association list:
the value of the first (and, for dicts, only) entry whose key matches. -/
def lookupA (l : List (String × Nat)) (k : String) : Option Nat :=
  match l with
  | [] => none
  | p :: ps => if p.1 == k then some p.2 else lookupA ps k

/-- Replace the value of the first entry whose key is `k` (Python dict item
assignment for an existing key); entries after the first match are untouched. -/
def updateA (l : List (String × Nat)) (k : String) (v : Nat) : List (String × Nat) :=
  match l with
  | [] => []
  | p :: ps => if p.1 == k then (k, v) :: ps else p :: updateA ps k v

/-- Keys of the association list, in order. -/
def keysOf (l : List (String × Nat)) : List String := l.map Prod.fst

/-- Sum of a Python dict's values, `sum(d.values())`. -/
def sumValues (l : List (String × Nat)) : Nat := (l.map Prod.snd).sum

/-- Append `x` unless already present: one step of key collection of a Python
dict comprehension, which keeps first-occurrence order and unique keys. -/
def insertOnce (l : List String) (x : String) : List String :=
  if l.contains x then l else l ++ [x]

/-- Key list of the dict comprehension over `names` in runner.py line 38:
first-occurrence order, duplicates collapsed. -/
def pyDictKeys (names : List String) : List String :=
  names.foldl insertOnce []

/-! ### TrainState (runner.py 31-42) -/

/-- Embeds the `TrainState` dataclass (runner.py 31-34). -/
structure TrainState where
  global_steps : Nat
  task_steps : List (String × Nat)
deriving DecidableEq, Repr

/-- Embeds `TrainState.from_task_name_list` (runner.py 36-38): all counters
zero, one dict entry per distinct task name. -/
def TrainState.from_task_name_list (task_name_list : List String) : TrainState :=
  { global_steps := 0, task_steps := (pyDictKeys task_name_list).map (fun n => (n, 0)) }

/-- Embeds `TrainState.step` (runner.py 40-42).  Line 41 reads
`self.task_steps[task_name]` before writing; on a missing key Python raises
`KeyError` before any mutation, so the error case carries no new state. -/
def TrainState.step (s : TrainState) (task_name : String) : Except String TrainState :=
  match lookupA s.task_steps task_name with
  | none => .error "KeyError: task name not in task_steps"
  | some v =>
      .ok { global_steps := s.global_steps + 1,
            task_steps := updateA s.task_steps task_name (v + 1) }

/-- Run a finite sequence of `TrainState.step` calls, stopping at the first
raised `KeyError`. -/
def applySteps (s : TrainState) (calls : List String) : Except String TrainState :=
  match calls with
  | [] => .ok s
  | t :: ts =>
      match s.step t with
      | .error e => .error e
      | .ok s' => applySteps s' ts

/-- The `TrainState` invariant claimed by the spec: the global counter equals
the sum of the per-task counters. -/
def stateInv (s : TrainState) : Prop := s.global_steps = sumValues s.task_steps

/-! ### Observable effects of the runners

Collaborator calls that matter to the claims are recorded as events, in the
order the source performs them.  Numeric values (losses) are carried
separately; an event trace never depends on them. -/

/-- One observable collaborator call of the runner code. -/
inductive Event
  | trainMode
  | evalModeStudent
  | evalModeTeacher
  | samplerPop (task : String)
  | batchPop (task : String)
  | forwardStudent
  | forwardTeacher
  | backprop
  | optStep
  | optZeroGrad
  | metaOptStep
  | metaZeroGrad
  | logWrite
  | dataloaderBuild (task : String)
  | labelCacheGet (task : String)
deriving DecidableEq, Repr

/-- The log record written by `run_train_step` (runner.py 120-128). -/
structure LogRecord where
  task : String
  task_step : Nat
  global_step : Nat
  loss_val : ℚ
deriving DecidableEq, Repr

/-- Modelled from the spec: `complex_backpropagate` lives in
`jiant.shared.runner`, which is not under `src/`.  Per spec section 4.3 it
averages the loss over replicas (already a scalar here), scales it by
`1 / gradient_accumulation_steps`, backpropagates, and returns the scaled
loss; it performs no optimizer step and no gradient zeroing itself. -/
def complex_backpropagate (loss : ℚ) (gradient_accumulation_steps : Nat) :
    List Event × ℚ :=
  ([Event.backprop], loss / gradient_accumulation_steps)

/-- Events of the gradient-accumulation loop (runner.py 104-114) for
micro-batches `0, ..., n-1`: each iteration pops a batch, runs a forward pass
and backpropagates through `complex_backpropagate`. -/
def accumEvents (task : String) (rawLoss : Nat → ℚ) (N : Nat) : Nat → List Event
  | 0 => []
  | n + 1 =>
      accumEvents task rawLoss N n
        ++ [Event.batchPop task, Event.forwardStudent]
        ++ (complex_backpropagate (rawLoss n) N).1

/-- The running `loss_val` of the accumulation loop (runner.py 103, 114):
the sum of the scaled per-micro-batch losses returned by
`complex_backpropagate`. -/
def lossValAcc (rawLoss : Nat → ℚ) (N : Nat) : Nat → ℚ
  | 0 => 0
  | n + 1 => lossValAcc rawLoss N n + (complex_backpropagate (rawLoss n) N).2

/-- The scaled per-micro-batch losses observed during one `run_train_step`
call with `gradient_accumulation_steps = N`. -/
def scaledLosses (rawLoss : Nat → ℚ) (N : Nat) : List ℚ :=
  (List.range N).map (fun i => (complex_backpropagate (rawLoss i) N).2)

/-- Arithmetic mean of a list of rationals. -/
def meanQ (l : List ℚ) : ℚ := l.sum / l.length

/-- Embeds `JiantRunner.run_train_step` (runner.py 98-128).  Inputs that the
source obtains from collaborators are parameters: the sampled `task_name`
(line 100), the per-task `gradient_accumulation_steps` `N` (line 101), and the
raw loss of micro-batch `i` (line 107-111) as `rawLoss i`.  Returns the event
trace and, on success, the post-step `TrainState` together with the log record
of lines 120-128. -/
def JiantRunner.run_train_step (s : TrainState) (task_name : String) (N : Nat)
    (rawLoss : Nat → ℚ) : List Event × Except String (TrainState × LogRecord) :=
  let pre := [Event.trainMode, Event.samplerPop task_name]
      ++ accumEvents task_name rawLoss N N
      ++ [Event.optStep, Event.optZeroGrad]
  match s.step task_name with
  | .error e => (pre, .error e)
  | .ok s' =>
      match lookupA s'.task_steps task_name with
      | none => (pre, .error "KeyError: task name not in task_steps")
      | some post =>
          (pre ++ [Event.logWrite],
           .ok (s', { task := task_name,
                      task_step := post,
                      global_step := s'.global_steps,
                      loss_val := lossValAcc rawLoss N N / N }))

/-! ### L2TWW weighting networks (runner.py 255-326)

Tensors are real-valued.  A per-layer hidden state is modelled as a rank-2
tensor `(batch, hidden)`: a list of rows.  This is the smallest shape family
on which every shape-dependent branch of the source (the reshape of line 274,
the squeeze and extend of lines 299-300) is expressible. -/

/-- A rank-2 real tensor: a list of rows. -/
abbrev Tensor2 := List (List ℝ)

/-- Weight and bias of one `nn.Linear` module. -/
structure LinParams where
  weight : List (List ℝ)
  bias : List ℝ

/-- Dot product of a weight row with the input. -/
noncomputable def dotR (w x : List ℝ) : ℝ := (List.zipWith (fun a b => a * b) w x).sum

/-- `nn.Linear` applied to a single input row: one output per (weight row,
bias entry) pair. -/
noncomputable def linearRow (p : LinParams) (x : List ℝ) : List ℝ :=
  List.zipWith (fun wr bi => dotR wr x + bi) p.weight p.bias

/-- `nn.Linear` applied to a rank-2 input (batched over rows); PyTorch raises
if the last dimension does not match `in_features`. -/
noncomputable def linearE (in_features : Nat) (p : LinParams) (x : Tensor2) :
    Except String Tensor2 :=
  if x.all (fun r => r.length == in_features) then .ok (x.map (linearRow p))
  else .error "RuntimeError: mat1 and mat2 shapes cannot be multiplied"

/-- Split a flat list into `S` consecutive chunks of `H` elements:
row-major `reshape(S, H)` after validity has been checked. -/
def takeChunks (S H : Nat) (l : List ℝ) : List (List ℝ) :=
  match S with
  | 0 => []
  | S' + 1 => l.take H :: takeChunks S' H (l.drop H)

/-- `F.softmax` along a single axis, as a function on one slice. -/
noncomputable def softmaxR (l : List ℝ) : List ℝ :=
  l.map (fun x => Real.exp x / (l.map Real.exp).sum)

/-- Embeds the body of `WhatNetwork.forward` for one teacher layer
(runner.py 273-275): linear projection, `reshape(student_num_layers,
hidden_size)` (which PyTorch rejects unless the total element count is
exactly `student_num_layers * hidden_size`), then softmax along axis 1,
i.e. along the hidden dimension of each student-layer row. -/
noncomputable def WhatNetwork.layer_forward (S H : Nat) (p : LinParams) (t : Tensor2) :
    Except String Tensor2 := do
  let out ← linearE H p t
  let flat := out.flatten
  if flat.length == S * H then .ok ((takeChunks S H flat).map softmaxR)
  else .error "RuntimeError: invalid shape for reshape"

/-- Embeds the `WhatNetwork` module (runner.py 255-267). -/
structure WhatNetwork where
  hidden_size : Nat
  teacher_num_layers : Nat
  student_num_layers : Nat
  what_network_linear : List LinParams

/-- The loop of `WhatNetwork.forward` (runner.py 271-278): iterate over
`range(len(teacher_states))`, indexing `what_network_linear[i]` (an index
error if the module list is shorter), and `extend` the flat output list with
the rows of each per-layer result. -/
noncomputable def whatForwardAux (S H : Nat) (ls : List LinParams) (ts : List Tensor2) :
    Except String (List (List ℝ)) :=
  match ts, ls with
  | [], _ => .ok []
  | _ :: _, [] => .error "IndexError: list index out of range"
  | t :: ts', p :: ls' => do
      let rows ← WhatNetwork.layer_forward S H p t
      let rest ← whatForwardAux S H ls' ts'
      .ok (rows ++ rest)

/-- Embeds `WhatNetwork.forward` (runner.py 269-278). -/
noncomputable def WhatNetwork.forward (net : WhatNetwork) (teacher_states : List Tensor2) :
    Except String (List (List ℝ)) :=
  whatForwardAux net.student_num_layers net.hidden_size net.what_network_linear teacher_states

/-- Elementwise `F.relu` on a rank-2 tensor. -/
noncomputable def relu2 (t : Tensor2) : Tensor2 := t.map (List.map (fun x => max x 0))

/-- Embeds `.squeeze()` followed by `outputs.extend(...)` (runner.py 299-300)
on a `(batch, student_num_layers)` tensor.  Squeeze drops size-1 axes;
iterating a 0-dimensional tensor (batch 1, one student layer) raises.  Each
element the Python list receives is rendered as a list of scalars: a plain
scalar becomes a one-element list, a row stays a row. -/
def squeezeExtend (out : Tensor2) : Except String (List (List ℝ)) :=
  match out with
  | [] => .ok []
  | [row] =>
      match row with
      | [] => .ok []
      | [v] => .error "TypeError: iteration over a 0-d tensor"
      | vs => .ok (vs.map (fun v => [v]))
  | rows => .ok rows

/-- Embeds the `WhereNetwork` module (runner.py 280-292). -/
structure WhereNetwork where
  hidden_size : Nat
  teacher_num_layers : Nat
  student_num_layers : Nat
  where_network_linear : List LinParams

/-- The loop of `WhereNetwork.forward` (runner.py 295-301): iterate exactly
`teacher_num_layers` times (the loop bound is the field, not the input
length), indexing both the module list and `teacher_states[i]`. -/
noncomputable def whereForwardAux (H : Nat) (n : Nat) (ls : List LinParams)
    (ts : List Tensor2) : Except String (List (List ℝ)) :=
  match n with
  | 0 => .ok []
  | n' + 1 =>
      match ls, ts with
      | [], _ => .error "IndexError: list index out of range"
      | _ :: _, [] => .error "IndexError: list index out of range"
      | p :: ls', t :: ts' => do
          let lin ← linearE H p t
          let out ← squeezeExtend (relu2 lin)
          let rest ← whereForwardAux H n' ls' ts'
          .ok (out ++ rest)

/-- Embeds `WhereNetwork.forward` (runner.py 295-301). -/
noncomputable def WhereNetwork.forward (net : WhereNetwork) (teacher_states : List Tensor2) :
    Except String (List (List ℝ)) :=
  whereForwardAux net.hidden_size net.teacher_num_layers net.where_network_linear teacher_states

/-- Embeds the `MetaWhatAndWhere` module (runner.py 303-309): its `__init__`
registers exactly the two sub-networks `what_network` and `where_network`. -/
structure MetaWhatAndWhere where
  what_network : WhatNetwork
  where_network : WhereNetwork

/-- Embeds `MetaWhatAndWhere.forward` (runner.py 311-326).  Lines 313-314 run
the two sub-networks; line 315 then evaluates `self.what_where_net(...)`, but
`what_where_net` is never set on this module (it only exists on the runner),
so Python attribute lookup raises `AttributeError` on every call and lines
318-326 are unreachable.  The unreachable inline loop is embedded separately
as `matchingLossLines318`. -/
noncomputable def MetaWhatAndWhere.forward (self : MetaWhatAndWhere)
    (teacher_states student_states : List Tensor2) : Except String ℝ := do
  let _weights ← self.what_network.forward teacher_states
  let _loss_weights ← self.where_network.forward teacher_states
  .error "AttributeError: MetaWhatAndWhere object has no attribute what_where_net"

/-! ### L2TWW inner loop and training step (runner.py 328-402) -/

/-- Collaborator data of one `L2TWWRunner`: the combined What/Where module and,
for micro-batch `b`, the per-layer hidden states `other[0]` returned by the
teacher and student forward passes (runner.py 343-353). -/
structure L2Env where
  mww : MetaWhatAndWhere
  teacherStates : Nat → List Tensor2
  studentStates : Nat → List Tensor2

/-- Sequence two effectful computations, short-circuiting on the first raised
exception but keeping the events that already happened. -/
def seqE (a b : List Event × Except String Unit) : List Event × Except String Unit :=
  match a.2 with
  | .error e => (a.1, .error e)
  | .ok _ => (a.1 ++ b.1, b.2)

/-- One iteration of the inner loop body (runner.py 342-356): zero the primary
optimizer gradients, forward the student, forward the teacher under
`torch.no_grad`, then call the What/Where module (line 353).  If that call
returned, lines 354-356 would backpropagate the total inner loss and take one
primary optimizer step. -/
noncomputable def innerStepOnce (env : L2Env) (b : Nat) : List Event × Except String Unit :=
  match MetaWhatAndWhere.forward env.mww (env.teacherStates b) (env.studentStates b) with
  | .error e => ([Event.optZeroGrad, Event.forwardStudent, Event.forwardTeacher], .error e)
  | .ok _ =>
      ([Event.optZeroGrad, Event.forwardStudent, Event.forwardTeacher,
        Event.backprop, Event.optStep], .ok ())

/-- `for inner_idx in range(inner_steps)` (runner.py 341). -/
noncomputable def repeatInner (env : L2Env) (b : Nat) : Nat → List Event × Except String Unit
  | 0 => ([], .ok ())
  | k + 1 => seqE (innerStepOnce env b) (repeatInner env b k)

/-- The per-batch tail of the inner loop (runner.py 358-362).
`outer_objective` (runner.py 328-333) runs one student forward pass and binds
`outer_loss`, but has no return statement, so it returns `None`; line 360 then
calls `.backward()` on `None`, which raises.  The `meta_backward` call and the
meta optimizer step (lines 361-362) are unreachable. -/
def outerObjectivePart : List Event × Except String Unit :=
  ([Event.metaZeroGrad, Event.optZeroGrad, Event.forwardStudent],
   .error "AttributeError: NoneType object has no attribute backward")

/-- Body of the `for batch in meta_batches` loop for one batch. -/
noncomputable def innerLoopBatch (env : L2Env) (inner_steps : Nat) (b : Nat) :
    List Event × Except String Unit :=
  seqE (repeatInner env b inner_steps) outerObjectivePart

/-- `for batch in meta_batches` (runner.py 340). -/
noncomputable def innerLoopBatches (env : L2Env) (inner_steps : Nat) :
    List Nat → List Event × Except String Unit
  | [] => ([], .ok ())
  | b :: bs => seqE (innerLoopBatch env inner_steps b) (innerLoopBatches env inner_steps bs)

/-- Embeds `L2TWWRunner.run_inner_loop` (runner.py 335-362); micro-batches are
identified by their index.  Line 336 first puts the teacher in eval mode. -/
noncomputable def L2TWWRunner.run_inner_loop (env : L2Env) (meta_batches : List Nat)
    (inner_steps : Nat) : List Event × Except String Unit :=
  let r := innerLoopBatches env inner_steps meta_batches
  (Event.evalModeTeacher :: r.1, r.2)

/-- Embeds `L2TWWRunner.run_train_step` (runner.py 364-402): the same
accumulation loop as the base class (meta-batches are the `N` micro-batch
indices, line 374-377), one `optimizer_scheduler.step(None)` and one
`zero_grad` (lines 388-389), then `run_inner_loop` with the default
`inner_steps = 1` (line 391), and finally the `TrainState` update and log
write (lines 393-402). -/
noncomputable def L2TWWRunner.run_train_step (env : L2Env) (s : TrainState)
    (task_name : String) (N : Nat) (rawLoss : Nat → ℚ) :
    List Event × Except String (TrainState × LogRecord) :=
  let pre := [Event.trainMode, Event.samplerPop task_name]
      ++ accumEvents task_name rawLoss N N
      ++ [Event.optStep, Event.optZeroGrad]
  let inner := L2TWWRunner.run_inner_loop env (List.range N) 1
  match inner.2 with
  | .error e => (pre ++ inner.1, .error e)
  | .ok _ =>
      match s.step task_name with
      | .error e => (pre ++ inner.1, .error e)
      | .ok s' =>
          match lookupA s'.task_steps task_name with
          | none => (pre ++ inner.1, .error "KeyError: task name not in task_steps")
          | some post =>
              (pre ++ inner.1 ++ [Event.logWrite],
               .ok (s', { task := task_name,
                          task_step := post,
                          global_step := s'.global_steps,
                          loss_val := lossValAcc rawLoss N N / N }))

/-! ### The unreachable inline matching-loss loop (runner.py 318-326)

Line 315 raises before this loop can run; the loop is embedded on its own so
that its shape can be compared with the specified all-pairs sum.  Hidden
states here are rank-4 rational tensors, the only rank on which
`diff.mean(3).mean(2)` is defined; the weight lookups `weights[m][n]` and
`loss_weights[m][n]` are abstracted into given functions of `(m, n)`.
Elementwise subtraction is defined for equal shapes. -/

/-- A rank-4 rational tensor. -/
abbrev Tensor4Q := List (List (List (List ℚ)))

/-- Mean of a list of rationals (`.mean` over one axis slice). -/
def meanQL (l : List ℚ) : ℚ := l.sum / l.length

/-- Elementwise `(a - b) ** 2` on equal-shaped rank-4 tensors (line 322). -/
def subSq4 (t s : Tensor4Q) : Tensor4Q :=
  List.zipWith (fun a b =>
    List.zipWith (fun c d =>
      List.zipWith (fun e f =>
        List.zipWith (fun x y => (x - y) ^ 2) e f) c d) a b) t s

/-- The value assigned to `diff` for one pair `(m, n)` (runner.py 322-324):
squared difference, `.mean(3).mean(2)`, multiply by the What weight, `.sum(1)`,
multiply by the Where weight, `.mean(0)`. -/
def pairTerm (t s : Tensor4Q) (w lw : ℚ) : ℚ :=
  let d3 := (subSq4 t s).map (fun c => c.map (fun m2 => m2.map meanQL))
  let d2 := d3.map (fun c => c.map meanQL)
  meanQL (d2.map (fun row => (row.map (fun x => x * w)).sum * lw))

/-- The inner `for n` loop (runner.py 320-324): every iteration overwrites the
local `diff`; the value surviving the loop is the one for the last `n`.  When
`student_states` is empty the incoming `diff` (from the previous `m`
iteration, or unbound) survives. -/
def innerNLoop (tm : Tensor4Q) (m : Nat) (ss : List Tensor4Q)
    (w lw : Nat → Nat → ℚ) (d0 : Option ℚ) : Option ℚ :=
  (List.range ss.length).foldl
    (fun _ n => some (pairTerm tm (ss.getD n []) (w m n) (lw m n))) d0

/-- The outer `for m` loop (runner.py 319-325): `matching_loss += diff` is
indented outside the inner loop, so each `m` contributes only the `diff` left
by the last inner iteration; an unbound `diff` is a `NameError`. -/
def matchingLoss318Aux (ss : List Tensor4Q) (w lw : Nat → Nat → ℚ) :
    List Tensor4Q → Nat → Option ℚ → ℚ → Except String ℚ
  | [], _, _, acc => .ok acc
  | tm :: rest, m, d, acc =>
      match innerNLoop tm m ss w lw d with
      | none => .error "NameError: name diff is not defined"
      | some dv => matchingLoss318Aux ss w lw rest (m + 1) (some dv) (acc + dv)

/-- Embeds the inline matching-loss computation of runner.py 318-326 exactly
as written (accumulation outside the inner loop). -/
def matchingLossLines318 (ts ss : List Tensor4Q) (w lw : Nat → Nat → ℚ) :
    Except String ℚ :=
  matchingLoss318Aux ss w lw ts 0 none 0

/-- Modelled from the spec: the matching loss the spec describes, the sum over
all pairs (teacher layer `m`, student layer `n`) of the weighted reduced mean
squared difference. -/
def matchingLossSpecSum (ts ss : List Tensor4Q) (w lw : Nat → Nat → ℚ) : ℚ :=
  ((List.range ts.length).map (fun m =>
    ((List.range ss.length).map (fun n =>
      pairTerm (ts.getD m []) (ss.getD n []) (w m n) (lw m n))).sum)).sum

/-! ### Standalone run_val / run_test (runner.py 419-516) -/

/-- Result of the standalone `run_val`, abstracted to the quantity the claims
speak about: the aggregate evaluation loss.  Metric computation and
prediction decoding are external collaborators. -/
structure ValOutput where
  loss : ℚ
deriving DecidableEq, Repr

/-- Embeds the standalone `run_val` (runner.py 419-478).  Line 432-433 is the
rank guard: any `local_rank` other than `-1` returns `None` before the model
is touched.  Otherwise one forward pass per batch accumulates the loss and
the aggregate loss divides by the number of batches (line 461; a Python
`ZeroDivisionError` on an empty dataloader). -/
def run_val (local_rank : Int) (batchLosses : List ℚ) :
    List Event × Except String (Option ValOutput) :=
  if local_rank = -1 then
    let evs := Event.evalModeStudent :: batchLosses.map (fun _ => Event.forwardStudent)
    if batchLosses.length = 0 then
      (evs, .error "ZeroDivisionError: division by zero")
    else
      (evs, .ok (some { loss := batchLosses.sum / batchLosses.length }))
  else ([], .ok none)

/-- Embeds the standalone `run_test` (runner.py 481-516).  Line 490-491 is the
same rank guard; otherwise one loss-free forward pass per batch feeds the
accumulator, abstracted here to the number of accumulated batches. -/
def run_test (local_rank : Int) (nBatches : Nat) :
    List Event × Except String (Option Nat) :=
  if local_rank = -1 then
    (Event.evalModeStudent :: (List.range nBatches).map (fun _ => Event.forwardStudent),
     .ok (some nBatches))
  else ([], .ok none)

/-- Alias used inside the `JiantRunner` methods, where the bare name `run_val`
would resolve to the method being defined. -/
def runValFn : Int → List ℚ → List Event × Except String (Option ValOutput) := run_val

/-- Alias used inside the `JiantRunner` methods, where the bare name
`run_test` would resolve to the method being defined. -/
def runTestFn : Int → Nat → List Event × Except String (Option Nat) := run_test

/-- Configuration of a `JiantRunner` as far as evaluation is concerned: the
configured test-task list (`task_run_config.test_task_list`), the rank, and
per-task collaborator data. -/
structure RunnerConfig where
  test_task_list : List String
  local_rank : Int
  valLosses : String → List ℚ
  testBatches : String → Nat

/-- Embeds `JiantRunner.run_val` (runner.py 130-150): build one val dataloader
per requested task (lines 132-134), read one label cache per requested task
(lines 135-137), then run the standalone `run_val` per requested task. -/
def JiantRunner.run_val (cfg : RunnerConfig) (task_name_list : List String) :
    List Event × List (String × Except String (Option ValOutput)) :=
  let pre := task_name_list.map Event.dataloaderBuild
      ++ task_name_list.map Event.labelCacheGet
  let per := task_name_list.map (fun t => (t, runValFn cfg.local_rank (cfg.valLosses t)))
  (pre ++ (per.map (fun p => p.2.1)).flatten, per.map (fun p => (p.1, p.2.2)))

/-- Embeds `JiantRunner.run_test` (runner.py 152-165): line 154 builds
dataloaders via `get_test_dataloader_dict()`, which iterates over the
configured `test_task_list` (line 213-217), not over the `task_name_list`
argument; the evaluation loop then iterates over the argument. -/
def JiantRunner.run_test (cfg : RunnerConfig) (task_name_list : List String) :
    List Event × List (String × Except String (Option Nat)) :=
  let pre := cfg.test_task_list.map Event.dataloaderBuild
  let per := task_name_list.map (fun t => (t, runTestFn cfg.local_rank (cfg.testBatches t)))
  (pre ++ (per.map (fun p => p.2.1)).flatten, per.map (fun p => (p.1, p.2.2)))

/-! ### Parameter-level state of the L2TWW runner (claim C9)

The teacher-freezing loop of `L2TWWRunner.__init__` (runner.py 248-249) and
the parameter updates of the training step are modelled over explicit
parameter lists.  Modelled from the spec: the primary optimizer is
constructed outside `src/` over the student model parameters, and the meta
optimizer over the What/Where parameters (the latter also at runner.py 253);
`.backward()` accumulates gradients only into parameters whose
`requires_grad` flag is set, and an optimizer step only writes the parameters
the optimizer owns. -/

/-- One model parameter: value, gradient buffer and `requires_grad` flag. -/
structure ParamP where
  value : ℚ
  grad : ℚ
  requires_grad : Bool
deriving DecidableEq, Repr

/-- Parameters of the three models the `L2TWWRunner` holds. -/
structure Sys where
  student : List ParamP
  teacher : List ParamP
  meta : List ParamP
deriving DecidableEq, Repr

/-- The freezing loop of `L2TWWRunner.__init__` (runner.py 248-249):
`p.requires_grad = False` for every teacher parameter. -/
def l2twwFreezeTeacher (sys : Sys) : Sys :=
  { sys with teacher := sys.teacher.map (fun p => { p with requires_grad := false }) }

/-- `optimizer.zero_grad()` of the primary optimizer: clears the gradient
buffers of the parameters it owns (the student model). -/
def zeroGradPrimary (sys : Sys) : Sys :=
  { sys with student := sys.student.map (fun p => { p with grad := 0 }) }

/-- Gradient accumulation of a backward pass: parameter `i` of the list
receives contribution `g i` only if its `requires_grad` flag is set. -/
def accumulateGrads (g : Nat → ℚ) (ps : List ParamP) : List ParamP :=
  ps.mapIdx (fun i p => if p.requires_grad then { p with grad := p.grad + g i } else p)

/-- `.backward()` on the student task loss: gradients flow into the student
parameters (the teacher takes part only under `torch.no_grad`, and its flags
are cleared anyway). -/
def backwardStudent (g : Nat → ℚ) (sys : Sys) : Sys :=
  { sys with student := accumulateGrads g sys.student }

/-- A primary optimizer step: writes only the parameters it owns. -/
def optStepPrimary (lr : ℚ) (sys : Sys) : Sys :=
  { sys with student := sys.student.map (fun p => { p with value := p.value - lr * p.grad }) }

/-- The accumulation loop of `run_train_step` at parameter level: `N` backward
passes (runner.py 379-386). -/
def sysAccumLoop (g : Nat → ℚ) : Nat → Sys → Sys
  | 0, sys => sys
  | n + 1, sys => backwardStudent g (sysAccumLoop g n sys)

/-- `run_inner_loop` at parameter level: with a non-empty meta-batch list the
first inner iteration zeroes the primary gradients (line 342) and then raises
at the matching-loss call (line 353), leaving exactly that state; with no
batches nothing happens. -/
def sysInnerLoop (N : Nat) (sys : Sys) : Sys :=
  if N = 0 then sys else zeroGradPrimary sys

/-- `L2TWWRunner.run_train_step` at parameter level (runner.py 364-391):
`N` backward passes, one optimizer step, one gradient zeroing, then the
(crashing) inner loop. -/
def sysRunTrainStep (g : Nat → ℚ) (lr : ℚ) (N : Nat) (sys : Sys) : Sys :=
  sysInnerLoop N (zeroGradPrimary (optStepPrimary lr (sysAccumLoop g N sys)))

/-- Iterate a state transformer `k` times. -/
def iterateSys (f : Sys → Sys) : Nat → Sys → Sys
  | 0, sys => sys
  | k + 1, sys => iterateSys f k (f sys)

/-! ### Concrete fixtures used by counterexamples and witnesses -/

/-- A What network with one teacher layer, two student layers, hidden size 1,
zero weights. -/
noncomputable def whatNetC1 : WhatNetwork :=
  { hidden_size := 1, teacher_num_layers := 1, student_num_layers := 2,
    what_network_linear := [{ weight := [[0], [0]], bias := [0, 0] }] }

/-- A Where network matching `whatNetC1`. -/
noncomputable def whereNetC1 : WhereNetwork :=
  { hidden_size := 1, teacher_num_layers := 1, student_num_layers := 2,
    where_network_linear := [{ weight := [[0], [0]], bias := [0, 0] }] }

/-- The combined module over the two fixtures. -/
noncomputable def mwwC1 : MetaWhatAndWhere :=
  { what_network := whatNetC1, where_network := whereNetC1 }

/-- One unbatched teacher state of hidden size 1 (shape `(1, 1)`). -/
noncomputable def tsC1 : List Tensor2 := [[[0]]]

/-- Two student states of the same shape. -/
noncomputable def ssC1 : List Tensor2 := [[[0]], [[0]]]

/-- Concrete rank-4 tensors for the inline-loop comparison: one teacher
layer state and two student layer states, all of shape `(1, 1, 1, 1)`. -/
def t4C1 : Tensor4Q := [[[[0]]]]

/-- First student state: differs from the teacher by 1. -/
def s4C1a : Tensor4Q := [[[[1]]]]

/-- Second student state: equal to the teacher. -/
def s4C1b : Tensor4Q := [[[[0]]]]

/-- An environment whose forward passes return no hidden states at all: the
smallest input on which both sub-networks succeed, isolating the line-315
attribute error. -/
noncomputable def envC10 : L2Env :=
  { mww := { what_network :=
               { hidden_size := 0, teacher_num_layers := 0, student_num_layers := 0,
                 what_network_linear := [] },
             where_network :=
               { hidden_size := 0, teacher_num_layers := 0, student_num_layers := 0,
                 where_network_linear := [] } },
    teacherStates := fun _ => [],
    studentStates := fun _ => [] }

/-- A runner configured with one test task. -/
def cfgC7 : RunnerConfig :=
  { test_task_list := ["mnli"], local_rank := -1,
    valLosses := fun _ => [], testBatches := fun _ => 0 }

/-- A What network with one teacher layer, one student layer, hidden size 1,
zero weights, used for the batched counterexample. -/
noncomputable def whatNetB2 : WhatNetwork :=
  { hidden_size := 1, teacher_num_layers := 1, student_num_layers := 1,
    what_network_linear := [{ weight := [[0]], bias := [0] }] }

/-! ## Theorems -/
/-! #### Association-list lemmas -/

theorem lookupA_isSome_iff (l : List (String × Nat)) (k : String) :
    (lookupA l k).isSome ↔ k ∈ keysOf l := by
  induction l with
  | nil => simp [lookupA, keysOf]
  | cons p ps ih =>
      by_cases h : p.1 = k
      · simp [lookupA, keysOf, h]
      · rw [show keysOf (p :: ps) = p.1 :: keysOf ps from rfl]
        simp only [lookupA, h, if_false, beq_iff_eq, List.mem_cons]
        rw [ih]
        constructor
        · exact Or.inr
        · rintro (hk | hk)
          · exact absurd hk.symm h
          · exact hk

theorem sumValues_updateA (l : List (String × Nat)) (k : String) (v w : Nat)
    (h : lookupA l k = some v) :
    sumValues (updateA l k w) + v = sumValues l + w := by
  induction l with
  | nil => simp [lookupA] at h
  | cons p ps ih =>
      by_cases hk : p.1 = k
      · simp [lookupA, hk] at h
        simp [updateA, sumValues, hk, h]
        omega
      · simp [lookupA, hk] at h
        have hih := ih h
        simp only [updateA, hk, if_false, beq_iff_eq]
        rw [show sumValues (p :: updateA ps k w) = p.2 + sumValues (updateA ps k w) from by
          simp [sumValues]]
        rw [show sumValues (p :: ps) = p.2 + sumValues ps from by simp [sumValues]]
        omega

theorem lookupA_updateA_self (l : List (String × Nat)) (k : String) (v w : Nat)
    (h : lookupA l k = some v) :
    lookupA (updateA l k w) k = some w := by
  induction l with
  | nil => simp [lookupA] at h
  | cons p ps ih =>
      by_cases hk : p.1 = k
      · simp [lookupA, updateA, hk]
      · simp [lookupA, hk] at h
        simp [updateA, lookupA, hk, ih h]

theorem lookupA_updateA_other (l : List (String × Nat)) (k u : String) (w : Nat)
    (h : u ≠ k) :
    lookupA (updateA l k w) u = lookupA l u := by
  induction l with
  | nil => simp [updateA]
  | cons p ps ih =>
      by_cases hk : p.1 = k
      · simp [updateA, lookupA, hk, Ne.symm h]
      · simp [updateA, lookupA, hk, ih]

theorem keysOf_updateA (l : List (String × Nat)) (k : String) (w : Nat)
    (hk : k ∈ keysOf l) :
    keysOf (updateA l k w) = keysOf l := by
  induction l with
  | nil => simp [updateA]
  | cons p ps ih =>
      by_cases h : p.1 = k
      · simp [updateA, keysOf, h]
      · have hmem : k ∈ keysOf ps := by
          rw [show keysOf (p :: ps) = p.1 :: keysOf ps from rfl] at hk
          rcases List.mem_cons.mp hk with hk' | hk'
          · exact absurd hk'.symm h
          · exact hk'
        rw [show updateA (p :: ps) k w = p :: updateA ps k w from by
          simp [updateA, h]]
        rw [show keysOf (p :: updateA ps k w) = p.1 :: keysOf (updateA ps k w) from rfl]
        rw [show keysOf (p :: ps) = p.1 :: keysOf ps from rfl, ih hmem]

/-! #### pyDictKeys lemmas -/

theorem mem_insertOnce (l : List String) (x y : String) :
    y ∈ insertOnce l x ↔ y ∈ l ∨ y = x := by
  by_cases h : x ∈ l
  · rw [show insertOnce l x = l from by simp [insertOnce, h]]
    constructor
    · exact Or.inl
    · rintro (hy | hy)
      · exact hy
      · exact hy ▸ h
  · rw [show insertOnce l x = l ++ [x] from by simp [insertOnce, h]]
    simp [List.mem_append]

theorem mem_foldl_insertOnce (rest : List String) (acc : List String) (x : String) :
    x ∈ rest.foldl insertOnce acc ↔ x ∈ acc ∨ x ∈ rest := by
  induction rest generalizing acc with
  | nil => simp
  | cons r rs ih =>
      simp only [List.foldl_cons, ih, mem_insertOnce, List.mem_cons]
      tauto

theorem mem_pyDictKeys (names : List String) (x : String) :
    x ∈ pyDictKeys names ↔ x ∈ names := by
  simpa [pyDictKeys] using mem_foldl_insertOnce names [] x

/-! #### TrainState lemmas -/

theorem keysOf_from_task_name_list (names : List String) :
    keysOf (TrainState.from_task_name_list names).task_steps = pyDictKeys names := by
  simp only [TrainState.from_task_name_list, keysOf, List.map_map]
  induction pyDictKeys names with
  | nil => rfl
  | cons n ns ih => simpa using ih

theorem stateInv_from_task_name_list (names : List String) :
    stateInv (TrainState.from_task_name_list names) := by
  simp only [stateInv, TrainState.from_task_name_list, sumValues]
  induction pyDictKeys names with
  | nil => simp
  | cons n ns ih => simpa using ih

theorem stateInv_step (s s' : TrainState) (t : String)
    (hinv : stateInv s) (h : s.step t = .ok s') : stateInv s' := by
  unfold TrainState.step at h
  cases hl : lookupA s.task_steps t with
  | none => simp [hl] at h
  | some v =>
      simp [hl] at h
      have hsum := sumValues_updateA s.task_steps t v (v + 1) hl
      subst h
      simp only [stateInv] at *
      omega

theorem keysOf_step (s s' : TrainState) (t : String)
    (h : s.step t = .ok s') : keysOf s'.task_steps = keysOf s.task_steps := by
  unfold TrainState.step at h
  cases hl : lookupA s.task_steps t with
  | none => simp [hl] at h
  | some v =>
      simp [hl] at h
      subst h
      have hk : t ∈ keysOf s.task_steps := by
        rw [← lookupA_isSome_iff, hl]
        rfl
      simpa using keysOf_updateA s.task_steps t (v + 1) hk

theorem stateInv_applySteps (calls : List String) (s s' : TrainState)
    (hinv : stateInv s) (h : applySteps s calls = .ok s') : stateInv s' := by
  induction calls generalizing s with
  | nil =>
      simp [applySteps] at h
      exact h ▸ hinv
  | cons t ts ih =>
      unfold applySteps at h
      cases hs : s.step t with
      | error e => simp [hs] at h
      | ok s1 =>
          simp [hs] at h
          exact ih s1 (stateInv_step s s1 t hinv hs) h

theorem keysOf_applySteps (calls : List String) (s s' : TrainState)
    (h : applySteps s calls = .ok s') : keysOf s'.task_steps = keysOf s.task_steps := by
  induction calls generalizing s with
  | nil =>
      simp [applySteps] at h
      simp [h]
  | cons t ts ih =>
      unfold applySteps at h
      cases hs : s.step t with
      | error e => simp [hs] at h
      | ok s1 =>
          simp [hs] at h
          rw [ih s1 h, keysOf_step s s1 t hs]

theorem applySteps_ok_of_valid (names : List String) (calls : List String)
    (h : ∀ t ∈ calls, t ∈ names) :
    ∃ s, applySteps (TrainState.from_task_name_list names) calls = .ok s := by
  suffices H : ∀ (cs : List String) (s : TrainState),
      keysOf s.task_steps = pyDictKeys names → (∀ t ∈ cs, t ∈ names) →
      ∃ s', applySteps s cs = .ok s' by
    exact H calls _ (keysOf_from_task_name_list names) h
  intro cs
  induction cs with
  | nil => exact fun s _ _ => ⟨s, rfl⟩
  | cons t ts ih =>
      intro s hkeys hmem
      have ht : t ∈ keysOf s.task_steps := by
        rw [hkeys, mem_pyDictKeys]
        exact hmem t (by simp)
      have hsome : (lookupA s.task_steps t).isSome := (lookupA_isSome_iff _ _).mpr ht
      cases hl : lookupA s.task_steps t with
      | none => rw [hl] at hsome; simp at hsome
      | some v =>
          have hstep : s.step t =
              .ok { global_steps := s.global_steps + 1,
                    task_steps := updateA s.task_steps t (v + 1) } := by
            simp [TrainState.step, hl]
          have hkeys' : keysOf (updateA s.task_steps t (v + 1)) = pyDictKeys names := by
            rw [keysOf_updateA s.task_steps t (v + 1) ht, hkeys]
          obtain ⟨s', hs'⟩ := ih { global_steps := s.global_steps + 1,
                                   task_steps := updateA s.task_steps t (v + 1) }
            hkeys' (fun u hu => hmem u (by simp [hu]))
          exact ⟨s', by simp [applySteps, hstep, hs']⟩

/-! ### Claim C4 and C8 theorems -/

/-- C4: for every `TrainState` created by `from_task_name_list` and every finite
sequence of `step(task_name)` calls with task names drawn from the original set,
the run succeeds and `global_steps` equals the sum of the `task_steps` values at
every observation point, i.e. after every prefix of the call sequence. -/
theorem trainState_global_eq_sum_task_steps (names calls : List String)
    (h : ∀ t ∈ calls, t ∈ names) (k : Nat) :
    ∃ s, applySteps (TrainState.from_task_name_list names) (calls.take k) = .ok s ∧
      s.global_steps = sumValues s.task_steps := by
  have hk : ∀ t ∈ calls.take k, t ∈ names := fun t ht => h t (List.take_subset k calls ht)
  obtain ⟨s, hs⟩ := applySteps_ok_of_valid names (calls.take k) hk
  exact ⟨s, hs, stateInv_applySteps _ _ _ (stateInv_from_task_name_list names) hs⟩

theorem trainState_global_eq_sum_task_steps_witness :
    (∀ t ∈ ["a", "b", "a"], t ∈ ["a", "b"]) ∧
    ∃ s, applySteps (TrainState.from_task_name_list ["a", "b"]) (["a", "b", "a"].take 3) = .ok s ∧
      s.global_steps = sumValues s.task_steps :=
  ⟨by decide, trainState_global_eq_sum_task_steps ["a", "b"] ["a", "b", "a"] (by decide) 3⟩

/-- C8: on any state reachable from `from_task_name_list(names)` by valid steps,
`step(task_name)` with `task_name` in `names` increments that task counter and
`global_steps` by exactly 1 and leaves every other task counter unchanged, while
`step(task_name)` with `task_name` not in `names` raises a KeyError (line 41
reads the missing key before any mutation, so no state change happens). -/
theorem trainState_step_increments_or_keyerror (names calls : List String)
    (hc : ∀ t ∈ calls, t ∈ names) (s : TrainState)
    (hs : applySteps (TrainState.from_task_name_list names) calls = .ok s) (t : String) :
    (t ∈ names → ∃ v, lookupA s.task_steps t = some v ∧
        s.step t = .ok { global_steps := s.global_steps + 1,
                         task_steps := updateA s.task_steps t (v + 1) } ∧
        lookupA (updateA s.task_steps t (v + 1)) t = some (v + 1) ∧
        ∀ u, u ≠ t → lookupA (updateA s.task_steps t (v + 1)) u = lookupA s.task_steps u) ∧
    (t ∉ names → s.step t = .error "KeyError: task name not in task_steps") := by
  have hkeys : keysOf s.task_steps = pyDictKeys names := by
    rw [keysOf_applySteps calls _ s hs, keysOf_from_task_name_list]
  constructor
  · intro ht
    have htk : t ∈ keysOf s.task_steps := by
      rw [hkeys, mem_pyDictKeys]
      exact ht
    have hsome := (lookupA_isSome_iff _ _).mpr htk
    cases hl : lookupA s.task_steps t with
    | none => rw [hl] at hsome; simp at hsome
    | some v =>
        refine ⟨v, rfl, ?_, ?_, ?_⟩
        · simp [TrainState.step, hl]
        · exact lookupA_updateA_self _ _ _ _ hl
        · exact fun u hu => lookupA_updateA_other _ _ _ _ hu
  · intro ht
    have hnone : ¬ (lookupA s.task_steps t).isSome = true := by
      rw [lookupA_isSome_iff, hkeys, mem_pyDictKeys]
      exact ht
    cases hl : lookupA s.task_steps t with
    | none => simp [TrainState.step, hl]
    | some v => rw [hl] at hnone; simp at hnone

theorem trainState_step_increments_witness :
    (∀ t ∈ ([] : List String), t ∈ ["a"]) ∧
    (("a" : String) ∈ ["a"] → ∃ v,
        lookupA (TrainState.from_task_name_list ["a"]).task_steps "a" = some v ∧
        (TrainState.from_task_name_list ["a"]).step "a" =
          .ok { global_steps := (TrainState.from_task_name_list ["a"]).global_steps + 1,
                task_steps := updateA (TrainState.from_task_name_list ["a"]).task_steps "a" (v + 1) } ∧
        lookupA (updateA (TrainState.from_task_name_list ["a"]).task_steps "a" (v + 1)) "a" = some (v + 1) ∧
        ∀ u, u ≠ "a" → lookupA (updateA (TrainState.from_task_name_list ["a"]).task_steps "a" (v + 1)) u =
          lookupA (TrainState.from_task_name_list ["a"]).task_steps u) ∧
    (("a" : String) ∉ ["a"] →
        (TrainState.from_task_name_list ["a"]).step "a" = .error "KeyError: task name not in task_steps") :=
  ⟨by decide, trainState_step_increments_or_keyerror ["a"] [] (by decide) _ rfl "a"⟩

/-! #### Lemmas about the accumulation loop -/

theorem optStep_not_mem_accumEvents (task : String) (rawLoss : Nat → ℚ) (N n : Nat) :
    Event.optStep ∉ accumEvents task rawLoss N n := by
  induction n with
  | zero => simp [accumEvents]
  | succ n ih => simp [accumEvents, complex_backpropagate, ih]

theorem optZeroGrad_not_mem_accumEvents (task : String) (rawLoss : Nat → ℚ) (N n : Nat) :
    Event.optZeroGrad ∉ accumEvents task rawLoss N n := by
  induction n with
  | zero => simp [accumEvents]
  | succ n ih => simp [accumEvents, complex_backpropagate, ih]

theorem lossValAcc_eq_sum (rawLoss : Nat → ℚ) (N n : Nat) :
    lossValAcc rawLoss N n = ((List.range n).map (fun i => (complex_backpropagate (rawLoss i) N).2)).sum := by
  induction n with
  | zero => simp [lossValAcc]
  | succ n ih => simp [lossValAcc, List.range_succ, ih]

/-! ### Softmax and reshape lemmas (claim C3) -/

theorem sum_map_div_right (l : List ℝ) (f : ℝ → ℝ) (d : ℝ) :
    (l.map (fun x => f x / d)).sum = (l.map f).sum / d := by
  induction l with
  | nil => simp
  | cons a as ih => simp [ih, add_div]

theorem sum_map_exp_pos (l : List ℝ) (h : l ≠ []) : 0 < (l.map Real.exp).sum := by
  cases l with
  | nil => exact absurd rfl h
  | cons a as =>
      have h1 : 0 ≤ (as.map Real.exp).sum := by
        apply List.sum_nonneg
        intro x hx
        simp only [List.mem_map] at hx
        obtain ⟨y, _, hy⟩ := hx
        exact hy ▸ (Real.exp_pos y).le
      have h2 := Real.exp_pos a
      simp only [List.map_cons, List.sum_cons]
      linarith

theorem softmaxR_sum_one (l : List ℝ) (h : l ≠ []) : (softmaxR l).sum = 1 := by
  unfold softmaxR
  rw [sum_map_div_right]
  exact div_self (ne_of_gt (sum_map_exp_pos l h))

theorem takeChunks_mem_length (S H : Nat) (l : List ℝ) (hl : l.length = S * H)
    (c : List ℝ) (hc : c ∈ takeChunks S H l) : c.length = H := by
  induction S generalizing l with
  | zero => simp [takeChunks] at hc
  | succ S' ih =>
      have hl' : l.length = S' * H + H := by rw [hl, Nat.succ_mul]
      simp only [takeChunks, List.mem_cons] at hc
      rcases hc with hc | hc
      · subst hc
        rw [List.length_take]
        omega
      · exact ih (l.drop H) (by rw [List.length_drop]; omega) hc

theorem whatLayer_forward_ok (S H : Nat) (p : LinParams) (x : List ℝ)
    (hW : p.weight.length = S * H) (hb : p.bias.length = S * H)
    (hx : x.length = H) (hH : 0 < H) :
    ∃ rows, WhatNetwork.layer_forward S H p [x] = .ok rows ∧
      ∀ r ∈ rows, r.sum = 1 := by
  have hlin : linearE H p [x] = .ok [linearRow p x] := by
    simp [linearE, hx]
  have hlen : (linearRow p x).length = S * H := by
    simp [linearRow, hW, hb]
  refine ⟨(takeChunks S H (linearRow p x)).map softmaxR, ?_, ?_⟩
  · rw [WhatNetwork.layer_forward, hlin]
    simp [Bind.bind, Except.bind, hlen]
  · intro r hr
    simp only [List.mem_map] at hr
    obtain ⟨c, hc, hcr⟩ := hr
    have hcl : c.length = H := takeChunks_mem_length S H _ hlen c hc
    have hcne : c ≠ [] := by
      intro hne
      rw [hne] at hcl
      simp at hcl
      omega
    exact hcr ▸ softmaxR_sum_one c hcne

theorem whatForwardAux_rows_sum_one (S H : Nat) (hH : 0 < H) :
    ∀ (ts : List Tensor2) (ls : List LinParams),
      (∀ p ∈ ls, p.weight.length = S * H ∧ p.bias.length = S * H) →
      (∀ t ∈ ts, ∃ x, t = [x] ∧ x.length = H) →
      ts.length ≤ ls.length →
      ∃ out, whatForwardAux S H ls ts = .ok out ∧ ∀ r ∈ out, r.sum = 1 := by
  intro ts
  induction ts with
  | nil =>
      intro ls _ _ _
      exact ⟨[], by cases ls <;> rfl, by simp⟩
  | cons t ts' ih =>
      intro ls hls hts hlen
      cases ls with
      | nil => simp at hlen
      | cons p ls' =>
          obtain ⟨x, hx1, hx2⟩ := hts t (by simp)
          obtain ⟨rows, hrows, hsum⟩ :=
            whatLayer_forward_ok S H p x (hls p (by simp)).1 (hls p (by simp)).2 hx2 hH
          obtain ⟨rest, hrest, hsumr⟩ :=
            ih ls' (fun q hq => hls q (by simp [hq]))
              (fun u hu => hts u (by simp [hu]))
              (by simpa using Nat.le_of_succ_le_succ hlen)
          subst hx1
          refine ⟨rows ++ rest, ?_, ?_⟩
          · simp [whatForwardAux, hrows, hrest, Bind.bind, Except.bind]
          · intro r hr
            rcases List.mem_append.mp hr with h | h
            · exact hsum r h
            · exact hsumr r h

/-- C3 (corrected): for every What network with well-formed per-layer linear
parameters, positive hidden size, and unbatched teacher-layer inputs (a
single row of `hidden_size` entries each — the only batch shape the reshape
of line 274 accepts), the forward pass succeeds and every student-layer slot
of the output sums to 1 across the hidden dimension. -/
theorem whatNetwork_softmax_rows_sum_one (net : WhatNetwork) (ts : List Tensor2)
    (hH : 0 < net.hidden_size)
    (hwf : ∀ p ∈ net.what_network_linear,
        p.weight.length = net.student_num_layers * net.hidden_size ∧
        p.bias.length = net.student_num_layers * net.hidden_size)
    (hts : ∀ t ∈ ts, ∃ x, t = [x] ∧ x.length = net.hidden_size)
    (hlen : ts.length ≤ net.what_network_linear.length) :
    ∃ out, WhatNetwork.forward net ts = .ok out ∧ ∀ r ∈ out, r.sum = 1 :=
  whatForwardAux_rows_sum_one _ _ hH ts _ hwf hts hlen

theorem whatNetwork_softmax_rows_sum_one_witness :
    (0 < whatNetB2.hidden_size) ∧
    ∃ out, WhatNetwork.forward whatNetB2 [[[(0 : ℝ)]]] = .ok out ∧ ∀ r ∈ out, r.sum = 1 :=
  ⟨by decide,
   whatNetwork_softmax_rows_sum_one whatNetB2 [[[(0 : ℝ)]]] (by decide)
     (by
       intro p hp
       simp only [whatNetB2] at hp
       rw [List.mem_singleton] at hp
       subst hp
       exact ⟨rfl, rfl⟩)
     (by
       intro t ht
       rw [List.mem_singleton] at ht
       exact ⟨[(0 : ℝ)], ht, rfl⟩)
     (by decide)⟩

/-- C3 counterexample: on a batched teacher-layer input (batch size 2) the
reshape of line 274 fails, so the claimed property (a softmax output whose
slots sum to 1) holds for no output — the claim is false for arbitrary batch
sizes. -/
theorem whatNetwork_batched_input_reshape_error :
    WhatNetwork.forward whatNetB2 [[[(0 : ℝ)], [0]]] =
      .error "RuntimeError: invalid shape for reshape" ∧
    ¬ ∃ out, WhatNetwork.forward whatNetB2 [[[(0 : ℝ)], [0]]] = .ok out ∧
        ∀ r ∈ out, r.sum = 1 := by
  have h : WhatNetwork.forward whatNetB2 [[[(0 : ℝ)], [0]]] =
      .error "RuntimeError: invalid shape for reshape" := rfl
  refine ⟨h, ?_⟩
  rintro ⟨out, hout, _⟩
  rw [h] at hout
  cases hout

/-! ### MetaWhatAndWhere and inner-loop lemmas (claims C1, C2, C10) -/

theorem mww_forward_always_error (m : MetaWhatAndWhere) (ts ss : List Tensor2) :
    ∃ e, MetaWhatAndWhere.forward m ts ss = .error e := by
  unfold MetaWhatAndWhere.forward
  cases h1 : m.what_network.forward ts with
  | error e => exact ⟨e, by simp [Bind.bind, Except.bind, h1]⟩
  | ok w =>
      cases h2 : m.where_network.forward ts with
      | error e => exact ⟨e, by simp [Bind.bind, Except.bind, h1, h2]⟩
      | ok lw =>
          exact ⟨"AttributeError: MetaWhatAndWhere object has no attribute what_where_net",
            by simp [Bind.bind, Except.bind, h1, h2]⟩

theorem innerStepOnce_error (env : L2Env) (b : Nat) :
    ∃ e, innerStepOnce env b =
      ([Event.optZeroGrad, Event.forwardStudent, Event.forwardTeacher], .error e) := by
  obtain ⟨e, he⟩ := mww_forward_always_error env.mww (env.teacherStates b) (env.studentStates b)
  exact ⟨e, by simp [innerStepOnce, he]⟩

theorem run_inner_loop_cons_error (env : L2Env) (b : Nat) (bs : List Nat) :
    ∃ e, L2TWWRunner.run_inner_loop env (b :: bs) 1 =
      ([Event.evalModeTeacher, Event.optZeroGrad, Event.forwardStudent,
        Event.forwardTeacher], .error e) := by
  obtain ⟨e, he⟩ := innerStepOnce_error env b
  refine ⟨e, ?_⟩
  simp [L2TWWRunner.run_inner_loop, innerLoopBatches, innerLoopBatch, repeatInner, seqE, he]

/-- C10 (corrected): for every environment and non-empty meta-batch list,
`run_inner_loop` unconditionally fails during the first inner step of the
first batch, at the matching-loss call of line 353 (inside which line 315
dereferences the nonexistent module attribute `what_where_net`); the
outer-objective step of lines 358-360 — whose missing return value would make
the subsequent backward call fail — is never reached: the trace ends at the
teacher forward pass and contains no meta-optimizer gradient zeroing. -/
theorem run_inner_loop_fails_at_matching_loss (env : L2Env) (b : Nat) (bs : List Nat) :
    ∃ e, L2TWWRunner.run_inner_loop env (b :: bs) 1 =
      ([Event.evalModeTeacher, Event.optZeroGrad, Event.forwardStudent,
        Event.forwardTeacher], .error e) ∧
      Event.metaZeroGrad ∉
        ([Event.evalModeTeacher, Event.optZeroGrad, Event.forwardStudent,
          Event.forwardTeacher] : List Event) := by
  obtain ⟨e, he⟩ := run_inner_loop_cons_error env b bs
  exact ⟨e, he, by decide⟩

/-- C10 counterexample: on a concrete one-batch input the inner loop raises
the line-315 AttributeError at the matching-loss call, not the NoneType
backward error that the outer-objective step would raise — that step is never
reached. -/
theorem run_inner_loop_counterexample :
    L2TWWRunner.run_inner_loop envC10 [0] 1 =
      ([Event.evalModeTeacher, Event.optZeroGrad, Event.forwardStudent,
        Event.forwardTeacher],
       .error "AttributeError: MetaWhatAndWhere object has no attribute what_where_net") ∧
    "AttributeError: MetaWhatAndWhere object has no attribute what_where_net" ≠
      "AttributeError: NoneType object has no attribute backward" :=
  ⟨rfl, by decide⟩

/-- C1 (code bug): `MetaWhatAndWhere.forward` raises the line-315
AttributeError on every input instead of returning a matching loss; and even
the inline loop of lines 318-326 that the spec describes sums, for each
teacher layer, only the term of the *last* student layer (the accumulation
statement is indented outside the inner loop), so on a concrete input it
yields 0 where the specified all-pairs weighted sum yields 1. -/
theorem metaWhatAndWhere_forward_code_bug :
    MetaWhatAndWhere.forward mwwC1 tsC1 ssC1 =
      .error "AttributeError: MetaWhatAndWhere object has no attribute what_where_net" ∧
    matchingLossLines318 [t4C1] [s4C1a, s4C1b] (fun _ _ => 1) (fun _ _ => 1) = .ok 0 ∧
    matchingLossSpecSum [t4C1] [s4C1a, s4C1b] (fun _ _ => 1) (fun _ _ => 1) = 1 := by
  have h1 : pairTerm t4C1 s4C1a 1 1 = 1 := by
    norm_num [pairTerm, subSq4, meanQL, t4C1, s4C1a]
  have h2 : pairTerm t4C1 s4C1b 1 1 = 0 := by
    norm_num [pairTerm, subSq4, meanQL, t4C1, s4C1b]
  refine ⟨rfl, ?_, ?_⟩
  · simp [matchingLossLines318, matchingLoss318Aux, innerNLoop, List.range_succ, h2]
  · simp [matchingLossSpecSum, List.range_succ, h1, h2]

/-! ### Optimizer-step and zero-grad counting (claim C2) -/

theorem count_optStep_accumEvents (task : String) (rawLoss : Nat → ℚ) (N n : Nat) :
    (accumEvents task rawLoss N n).count Event.optStep = 0 :=
  List.count_eq_zero.mpr (optStep_not_mem_accumEvents task rawLoss N n)

theorem count_optZeroGrad_accumEvents (task : String) (rawLoss : Nat → ℚ) (N n : Nat) :
    (accumEvents task rawLoss N n).count Event.optZeroGrad = 0 :=
  List.count_eq_zero.mpr (optZeroGrad_not_mem_accumEvents task rawLoss N n)

/-- C2 (corrected): `JiantRunner.run_train_step` performs exactly one optimizer
step and one gradient zeroing per call, for every accumulation count `N ≥ 1`;
the `L2TWWRunner.run_train_step` override still performs exactly one optimizer
step (its inner loop fails before the inner optimizer step) but performs two
gradient zeroings: the one of line 389 plus the inner-loop one of line 342. -/
theorem run_train_step_one_opt_step (s : TrainState) (t : String) (N : Nat)
    (rawLoss : Nat → ℚ) (env : L2Env) (hN : 1 ≤ N) :
    ((JiantRunner.run_train_step s t N rawLoss).1.count Event.optStep = 1 ∧
     (JiantRunner.run_train_step s t N rawLoss).1.count Event.optZeroGrad = 1) ∧
    ((L2TWWRunner.run_train_step env s t N rawLoss).1.count Event.optStep = 1 ∧
     (L2TWWRunner.run_train_step env s t N rawLoss).1.count Event.optZeroGrad = 2) := by
  obtain ⟨k, rfl⟩ : ∃ k, N = k + 1 := ⟨N - 1, by omega⟩
  constructor
  · unfold JiantRunner.run_train_step
    cases hstep : s.step t with
    | error e =>
        simp [hstep, List.count_append, List.count_cons, count_optStep_accumEvents,
          count_optZeroGrad_accumEvents]
    | ok s' =>
        cases hlook : lookupA s'.task_steps t with
        | none =>
            simp [hstep, hlook, List.count_append, List.count_cons,
              count_optStep_accumEvents, count_optZeroGrad_accumEvents]
        | some post =>
            simp [hstep, hlook, List.count_append, List.count_cons,
              count_optStep_accumEvents, count_optZeroGrad_accumEvents]
  · obtain ⟨e, he⟩ :=
      run_inner_loop_cons_error env 0 (List.map (fun x => x + 1) (List.range k))
    have hrange : List.range (k + 1) = 0 :: List.map (fun x => x + 1) (List.range k) :=
      List.range_succ_eq_map k
    simp only [L2TWWRunner.run_train_step, hrange, he]
    simp [List.count_append, List.count_cons, count_optStep_accumEvents,
      count_optZeroGrad_accumEvents]

theorem run_train_step_one_opt_step_witness :
    1 ≤ 1 ∧
    (((JiantRunner.run_train_step (TrainState.from_task_name_list ["a"]) "a" 1
        (fun _ => 0)).1.count Event.optStep = 1 ∧
      (JiantRunner.run_train_step (TrainState.from_task_name_list ["a"]) "a" 1
        (fun _ => 0)).1.count Event.optZeroGrad = 1) ∧
     ((L2TWWRunner.run_train_step envC10 (TrainState.from_task_name_list ["a"]) "a" 1
        (fun _ => 0)).1.count Event.optStep = 1 ∧
      (L2TWWRunner.run_train_step envC10 (TrainState.from_task_name_list ["a"]) "a" 1
        (fun _ => 0)).1.count Event.optZeroGrad = 2)) :=
  ⟨by decide,
   run_train_step_one_opt_step (TrainState.from_task_name_list ["a"]) "a" 1
     (fun _ => 0) envC10 (by decide)⟩

/-- C2 counterexample: with `gradient_accumulation_steps = 1`, one call to the
L2TWW override performs two gradient zeroings, not exactly one. -/
theorem l2tww_run_train_step_two_zero_grads :
    (L2TWWRunner.run_train_step envC10 (TrainState.from_task_name_list ["a"]) "a" 1
        (fun _ => 0)).1.count Event.optZeroGrad ≠ 1 := by
  decide

/-! ### The training-step log record (claim C5) -/

/-- C5 (confirmed): a successful `run_train_step` over task `t` with
`gradient_accumulation_steps = N` returns the post-step `TrainState` and a log
record carrying the task name, the post-step per-task and global counters, and
a loss equal to the arithmetic mean of the `N` scaled per-micro-batch losses
observed during the call. -/
theorem run_train_step_log_record (s : TrainState) (t : String) (N : Nat)
    (rawLoss : Nat → ℚ) (v : Nat) (hv : lookupA s.task_steps t = some v) :
    (JiantRunner.run_train_step s t N rawLoss).2 =
      .ok ({ global_steps := s.global_steps + 1,
             task_steps := updateA s.task_steps t (v + 1) },
           { task := t, task_step := v + 1, global_step := s.global_steps + 1,
             loss_val := meanQ (scaledLosses rawLoss N) }) := by
  have hstep : s.step t =
      .ok { global_steps := s.global_steps + 1,
            task_steps := updateA s.task_steps t (v + 1) } := by
    simp [TrainState.step, hv]
  have hlook : lookupA (updateA s.task_steps t (v + 1)) t = some (v + 1) :=
    lookupA_updateA_self _ _ _ _ hv
  have hloss : lossValAcc rawLoss N N / (N : ℚ) = meanQ (scaledLosses rawLoss N) := by
    rw [lossValAcc_eq_sum, meanQ]
    simp [scaledLosses]
  unfold JiantRunner.run_train_step
  simp [hstep, hlook, hloss]

theorem run_train_step_log_record_witness :
    lookupA (TrainState.from_task_name_list ["a"]).task_steps "a" = some 0 ∧
    (JiantRunner.run_train_step (TrainState.from_task_name_list ["a"]) "a" 2
        (fun i => (i : ℚ))).2 =
      .ok ({ global_steps := (TrainState.from_task_name_list ["a"]).global_steps + 1,
             task_steps := updateA (TrainState.from_task_name_list ["a"]).task_steps "a" (0 + 1) },
           { task := "a", task_step := 0 + 1,
             global_step := (TrainState.from_task_name_list ["a"]).global_steps + 1,
             loss_val := meanQ (scaledLosses (fun i => (i : ℚ)) 2) }) :=
  ⟨rfl, run_train_step_log_record (TrainState.from_task_name_list ["a"]) "a" 2
    (fun i => (i : ℚ)) 0 rfl⟩

/-! ### Rank guard and empty-task-list evaluation (claims C6, C7) -/

/-- C6 (confirmed): the standalone `run_val` and `run_test` called with any
`local_rank` other than `-1` return `None` immediately: empty event trace (no
eval-mode switch, no forward pass) and no raised exception. -/
theorem run_val_run_test_rank_guard (local_rank : Int) (batchLosses : List ℚ)
    (nBatches : Nat) (h : local_rank ≠ -1) :
    run_val local_rank batchLosses = ([], .ok none) ∧
    run_test local_rank nBatches = ([], .ok none) := by
  constructor <;> simp [run_val, run_test, h]

theorem run_val_run_test_rank_guard_witness :
    ((0 : Int) ≠ -1) ∧
    run_val 0 [] = ([], .ok none) ∧ run_test 0 0 = ([], .ok none) :=
  ⟨by decide, run_val_run_test_rank_guard 0 [] 0 (by decide)⟩

/-- C7 (corrected): `JiantRunner.run_val` with an empty task list returns an
empty mapping with no collaborator call at all; `JiantRunner.run_test` with an
empty task list also returns an empty mapping and performs no label-cache
access and no forward pass, but still constructs one test dataloader per task
of the *configured* `test_task_list` (line 154 iterates the configuration,
not the argument). -/
theorem runner_empty_task_list (cfg : RunnerConfig) :
    JiantRunner.run_val cfg [] = ([], []) ∧
    JiantRunner.run_test cfg [] = (cfg.test_task_list.map Event.dataloaderBuild, []) := by
  constructor <;> simp [JiantRunner.run_val, JiantRunner.run_test]

/-- C7 counterexample: with one configured test task, `run_test` on an empty
task list still emits a dataloader-construction collaborator call. -/
theorem runner_run_test_empty_invokes_collaborator :
    (JiantRunner.run_test cfgC7 []).1 = [Event.dataloaderBuild "mnli"] ∧
    (JiantRunner.run_test cfgC7 []).1 ≠ [] := by
  refine ⟨rfl, ?_⟩
  rw [show (JiantRunner.run_test cfgC7 []).1 = [Event.dataloaderBuild "mnli"] from rfl]
  simp

/-! ### The frozen teacher (claim C9) -/

/-- C9 (confirmed): `L2TWWRunner.__init__` disables gradient tracking on every
teacher parameter, and iterating `run_train_step` any number of times leaves
the teacher parameter list — values, gradient buffers and `requires_grad`
flags — exactly as frozen: the runner never re-enables gradients on, and never
applies an update to, the teacher's parameters. -/
theorem l2tww_teacher_frozen (sys : Sys) (g : Nat → ℚ) (lr : ℚ) (N k : Nat) :
    (∀ p ∈ (l2twwFreezeTeacher sys).teacher, p.requires_grad = false) ∧
    (iterateSys (sysRunTrainStep g lr N) k (l2twwFreezeTeacher sys)).teacher =
      (l2twwFreezeTeacher sys).teacher := by
  constructor
  · intro p hp
    simp only [l2twwFreezeTeacher, List.mem_map] at hp
    obtain ⟨q, _, hq⟩ := hp
    rw [← hq]
  · have hacc : ∀ n (s' : Sys), (sysAccumLoop g n s').teacher = s'.teacher := by
      intro n
      induction n with
      | zero => intro s'; rfl
      | succ n ih => intro s'; simp [sysAccumLoop, backwardStudent, ih]
    have hstep : ∀ s' : Sys, (sysRunTrainStep g lr N s').teacher = s'.teacher := by
      intro s'
      unfold sysRunTrainStep sysInnerLoop zeroGradPrimary optStepPrimary
      by_cases hN : N = 0 <;> simp [hN, hacc]
    have hiter : ∀ (m : Nat) (s0 : Sys),
        (iterateSys (sysRunTrainStep g lr N) m s0).teacher = s0.teacher := by
      intro m
      induction m with
      | zero => intro s0; rfl
      | succ m ih =>
          intro s0
          simp only [iterateSys]
          rw [ih, hstep]
    exact hiter k _
